import Mathlib

/-!
Verification of the MCP client layer of the dedalus-sdk-typescript repository.

Shallow embedding: the mutable `Map`/`Set`/`AbortController` state of the
TypeScript classes is modelled by association lists and an explicit heap of
abort flags; fallible methods return `Except` or a `Bool` alongside the new
state.  Sources embedded here:
  - src/lib/mcp-client/cancellation.ts  (CancellationManager)
  - src/lib/mcp-client/tasks.ts         (waitForTask, sleep, TaskStatusManager)
  - src/lib/mcp-client/client.ts        (DedalusMCPClient: close,
                                         callToolCancellable, listAll* pagination)
  - src/lib/mcp-client/manager.ts       (MCPClientManager: addServer,
                                         createClient, callTool)
  - src/lib/runner/mcp-integration.ts   (aggregateMCPTools)
-/

namespace DedalusSDK

/-! ## JavaScript `Map` semantics over association lists

`mapSet` replaces the value of an existing key in place (keeping its
position, as `Map.prototype.set` does) and otherwise appends the new entry;
`mapDelete` removes the entry of a key; `mapLookup` finds the value of a key.
-/

def mapLookup {K V : Type} [DecidableEq K] : List (K × V) → K → Option V
  | [], _ => none
  | p :: t, k => if p.1 = k then some p.2 else mapLookup t k

def mapSet {K V : Type} [DecidableEq K] : List (K × V) → K → V → List (K × V)
  | [], k, v => [(k, v)]
  | p :: t, k, v => if p.1 = k then (k, v) :: t else p :: mapSet t k v

def mapDelete {K V : Type} [DecidableEq K] : List (K × V) → K → List (K × V)
  | [], _ => []
  | p :: t, k => if p.1 = k then mapDelete t k else p :: mapDelete t k

theorem mapLookup_mapSet_self {K V : Type} [DecidableEq K]
    (m : List (K × V)) (k : K) (v : V) : mapLookup (mapSet m k v) k = some v := by
  induction m with
  | nil => simp [mapSet, mapLookup]
  | cons p t ih =>
    by_cases h : p.1 = k
    · simp [mapSet, h, mapLookup]
    · simp [mapSet, h, mapLookup, ih]

theorem mapLookup_mapSet_ne {K V : Type} [DecidableEq K]
    (m : List (K × V)) {k k' : K} (v : V) (h : k' ≠ k) :
    mapLookup (mapSet m k v) k' = mapLookup m k' := by
  have hk : ¬ k = k' := fun e => h e.symm
  induction m with
  | nil => simp [mapSet, mapLookup, hk]
  | cons p t ih =>
    by_cases hp : p.1 = k
    · subst hp
      simp [mapSet, mapLookup, hk]
    · simp [mapSet, hp, mapLookup, ih]

theorem mapLookup_mapDelete_self {K V : Type} [DecidableEq K]
    (m : List (K × V)) (k : K) : mapLookup (mapDelete m k) k = none := by
  induction m with
  | nil => simp [mapDelete, mapLookup]
  | cons p t ih =>
    by_cases h : p.1 = k
    · simp [mapDelete, h, ih]
    · simp [mapDelete, h, mapLookup, ih]

theorem mapDelete_mapDelete {K V : Type} [DecidableEq K]
    (m : List (K × V)) (k : K) : mapDelete (mapDelete m k) k = mapDelete m k := by
  induction m with
  | nil => simp [mapDelete]
  | cons p t ih =>
    by_cases h : p.1 = k
    · simp [mapDelete, h, ih]
    · simp [mapDelete, h, ih]

/-! ## Heap of `AbortController` abort flags

Each `AbortController` allocated by the cancellation manager lives at an
index of this heap; `heapSet` is `controller.abort()` and `heapGet` reads
`controller.signal.aborted`.
-/

def heapSet : List Bool → Nat → List Bool
  | [], _ => []
  | _ :: t, 0 => true :: t
  | b :: t, n + 1 => b :: heapSet t n

def heapGet : List Bool → Nat → Bool
  | [], _ => false
  | b :: _, 0 => b
  | _ :: t, n + 1 => heapGet t n

theorem length_heapSet (l : List Bool) (n : Nat) : (heapSet l n).length = l.length := by
  induction l generalizing n with
  | nil => simp [heapSet]
  | cons b t ih =>
    cases n with
    | zero => simp [heapSet]
    | succ n => simp [heapSet, ih]

theorem heapGet_heapSet_self (l : List Bool) (n : Nat) (h : n < l.length) :
    heapGet (heapSet l n) n = true := by
  induction l generalizing n with
  | nil => simp at h
  | cons b t ih =>
    cases n with
    | zero => simp [heapSet, heapGet]
    | succ n =>
      simp only [heapSet, heapGet]
      exact ih n (by simpa using h)

theorem heapGet_heapSet_of_true (l : List Bool) (n m : Nat) (h : heapGet l m = true) :
    heapGet (heapSet l n) m = true := by
  induction l generalizing n m with
  | nil => simp [heapGet] at h
  | cons b t ih =>
    cases n with
    | zero =>
      cases m with
      | zero => simp [heapSet, heapGet]
      | succ m => simpa [heapSet, heapGet] using h
    | succ n =>
      cases m with
      | zero => simpa [heapSet, heapGet] using h
      | succ m =>
        simp only [heapSet, heapGet] at h ⊢
        exact ih n m h

/-! ## CancellationManager (src/lib/mcp-client/cancellation.ts)

`pendingRequests : Map<RequestId, AbortController>` becomes an association
list from request id to the index of the request's controller in the heap
`controllers`; `counter` backs `generateRequestId`.  `Date.now()` is passed
in as the explicit argument `now`.
-/

structure CancellationManager where
  pendingRequests : List (String × Nat)
  controllers : List Bool
  counter : Nat
deriving DecidableEq

namespace CancellationManager

def generateRequestId (s : CancellationManager) (now : Nat) : String × CancellationManager :=
  ("req-" ++ toString now ++ "-" ++ toString s.counter, { s with counter := s.counter + 1 })

def create (s : CancellationManager) (requestId : String) : Nat × CancellationManager :=
  let cid := s.controllers.length
  (cid, { s with controllers := s.controllers ++ [false],
                 pendingRequests := mapSet s.pendingRequests requestId cid })

def complete (s : CancellationManager) (requestId : String) : CancellationManager :=
  { s with pendingRequests := mapDelete s.pendingRequests requestId }

def cancel (s : CancellationManager) (requestId : String) : Bool × CancellationManager :=
  match mapLookup s.pendingRequests requestId with
  | some cid =>
      (true, { s with controllers := heapSet s.controllers cid,
                      pendingRequests := mapDelete s.pendingRequests requestId })
  | none => (false, s)

def isPending (s : CancellationManager) (requestId : String) : Bool :=
  (mapLookup s.pendingRequests requestId).isSome

def size (s : CancellationManager) : Nat := s.pendingRequests.length

def cancelAll (s : CancellationManager) : CancellationManager :=
  { s with controllers := s.pendingRequests.foldl (fun h p => heapSet h p.2) s.controllers,
           pendingRequests := [] }

end CancellationManager

/-- C1: after `create(id)` at most one of `cancel(id)` / `complete(id)` wins:
`cancel` returns `true` iff the entry is still pending, in which case it
aborts the entry's controller and removes the entry; `cancel` after
`complete`, or after an earlier winning `cancel`, returns `false` and leaves
the state unchanged. -/
theorem c1_cancellation_at_most_once (s : CancellationManager) (id : String) :
    ((CancellationManager.create s id).2.cancel id).1 = true
    ∧ heapGet ((CancellationManager.create s id).2.cancel id).2.controllers
        (CancellationManager.create s id).1 = true
    ∧ ((CancellationManager.create s id).2.cancel id).2.isPending id = false
    ∧ (((CancellationManager.create s id).2.complete id).cancel id
        = (false, (CancellationManager.create s id).2.complete id))
    ∧ (((CancellationManager.create s id).2.cancel id).2.cancel id
        = (false, ((CancellationManager.create s id).2.cancel id).2))
    ∧ (∀ (t : CancellationManager) (j : String), (t.cancel j).1 = t.isPending j) := by
  have hlook : mapLookup (CancellationManager.create s id).2.pendingRequests id
      = some s.controllers.length := by
    simp [CancellationManager.create, mapLookup_mapSet_self]
  refine ⟨?_, ?_, ?_, ?_, ?_, ?_⟩
  · simp [CancellationManager.cancel, hlook]
  · have hc : ((CancellationManager.create s id).2.cancel id).2.controllers
        = heapSet (s.controllers ++ [false]) s.controllers.length := by
      simp [CancellationManager.cancel, CancellationManager.create, mapLookup_mapSet_self]
    have h1 : (CancellationManager.create s id).1 = s.controllers.length := rfl
    rw [hc, h1]
    exact heapGet_heapSet_self _ _ (by simp)
  · simp [CancellationManager.cancel, hlook, CancellationManager.isPending,
      mapLookup_mapDelete_self]
  · simp [CancellationManager.cancel, CancellationManager.complete,
      mapLookup_mapDelete_self]
  · simp [CancellationManager.cancel, hlook, mapLookup_mapDelete_self]
  · intro t j
    unfold CancellationManager.cancel CancellationManager.isPending
    cases h : mapLookup t.pendingRequests j <;> simp [h]

/-! ## TaskStatusManager (src/lib/mcp-client/tasks.ts)

`callbacks : Map<TaskId, Set<TaskStatusCallback>>` becomes an association
list from taskId to the index of a JS `Set` object in the heap `sets`;
callbacks themselves are identified by numbers.  The closure returned by
`subscribe` captures the `Set` object (`setIdx`), the `taskId` and the
`callback` — exactly the data the TypeScript closure closes over — and
`runUnsubscribe` executes it against the current manager state.
-/

structure TaskStatusManager where
  sets : List (List Nat)
  callbacks : List (String × Nat)
deriving DecidableEq

/-- Data captured by the unsubscribe closure returned by `subscribe`. -/
structure Unsubscribe where
  setIdx : Nat
  taskId : String
  callback : Nat
deriving DecidableEq

namespace TaskStatusManager

/-- JS `Set.prototype.add`: appends unless already present. -/
def setAdd (s : List Nat) (c : Nat) : List Nat := if c ∈ s then s else s ++ [c]

def subscribe (m : TaskStatusManager) (taskId : String) (cb : Nat) :
    Unsubscribe × TaskStatusManager :=
  match mapLookup m.callbacks taskId with
  | some idx =>
      (⟨idx, taskId, cb⟩, { m with sets := m.sets.set idx (setAdd (m.sets.getD idx []) cb) })
  | none =>
      let idx := m.sets.length
      (⟨idx, taskId, cb⟩,
        { sets := m.sets ++ [setAdd [] cb],
          callbacks := mapSet m.callbacks taskId idx })

/-- Runs the closure returned by `subscribe`: `callbacks?.delete(callback)`
followed by `if (callbacks?.size === 0) this.callbacks.delete(taskId)`,
where `callbacks` is the captured `Set` object. -/
def runUnsubscribe (m : TaskStatusManager) (u : Unsubscribe) : TaskStatusManager :=
  let s := (m.sets.getD u.setIdx []).erase u.callback
  let m1 : TaskStatusManager := { m with sets := m.sets.set u.setIdx s }
  if s.length = 0 then { m1 with callbacks := mapDelete m1.callbacks u.taskId } else m1

/-- The list of callbacks that `handleStatus(task)` would invoke for `taskId`. -/
def handleStatus (m : TaskStatusManager) (taskId : String) : List Nat :=
  match mapLookup m.callbacks taskId with
  | some idx => m.sets.getD idx []
  | none => []

def hasSubscribers (m : TaskStatusManager) (taskId : String) : Bool :=
  match mapLookup m.callbacks taskId with
  | some idx => !(m.sets.getD idx []).isEmpty
  | none => false

def clear (m : TaskStatusManager) : TaskStatusManager := { m with callbacks := [] }

end TaskStatusManager

/-- C6: the unsubscribe closure is not as isolated as claimed.  After
`u1 = subscribe("t", A)`, `u1()`, `subscribe("t", B)`, a second invocation
of `u1` observes its captured (now empty, stale) set and deletes the whole
per-task entry, removing B's live subscription: `hasSubscribers "t"` flips
from `true` to `false` and dispatch for `"t"` reaches nobody, although B
never unsubscribed. -/
theorem c6_stale_unsubscribe_removes_other_subscriber :
    (let empty : TaskStatusManager := ⟨[], []⟩
     let step1 := empty.subscribe "t" 0
     let m2 := step1.2.runUnsubscribe step1.1
     let m3 := (m2.subscribe "t" 1).2
     let m4 := m3.runUnsubscribe step1.1
     m3.hasSubscribers "t" = true ∧ m3.handleStatus "t" = [1]
       ∧ m4.hasSubscribers "t" = false ∧ m4.handleStatus "t" = []) := by
  refine ⟨?_, ?_, ?_, ?_⟩ <;> decide

/-! ## ProgressTracker (src/lib/mcp-client/progress.ts)

Only the parts that the connection lifecycle touches are needed here:
the token→callback map and `clear()`. -/

structure ProgressTracker where
  callbacks : List (String × Nat)
  counter : Nat
deriving DecidableEq

namespace ProgressTracker

def clear (t : ProgressTracker) : ProgressTracker := { t with callbacks := [] }

end ProgressTracker

/-! ## DedalusMCPClient (src/lib/mcp-client/client.ts)

State relevant to `close()` and `callToolCancellable()`: the `connected`
flag and the three connection-scoped registries. -/

structure DedalusMCPClient where
  connected : Bool
  progressTracker : ProgressTracker
  cancellationManager : CancellationManager
  taskStatusManager : TaskStatusManager
deriving DecidableEq

namespace DedalusMCPClient

/-- Embedding of `close()`.  `transportCloseFails` says whether the inner
`this.client.close()` call throws.  Result: the new state, whether the
transport close was attempted, and whether an exception propagates to the
caller (the `finally` block runs in either case). -/
def close (c : DedalusMCPClient) (transportCloseFails : Bool) :
    DedalusMCPClient × Bool × Bool :=
  if !c.connected then (c, false, false)
  else
    ({ connected := false,
       progressTracker := c.progressTracker.clear,
       cancellationManager := c.cancellationManager.cancelAll,
       taskStatusManager := c.taskStatusManager.clear },
     true, transportCloseFails)

/-- Embedding of the synchronous part of `callToolCancellable`: generate a
request id (`now` stands for `Date.now()`) and create its cancellation entry
before the call is dispatched. -/
def callToolCancellableStart (s : CancellationManager) (now : Nat) :
    CancellationManager × String :=
  let g := s.generateRequestId now
  let c := g.2.create g.1
  (c.2, g.1)

/-- Embedding of the async body of `callToolCancellable`: `ensureConnected()`
runs before the `try`, so a not-connected throw rejects the promise without
`complete(requestId)` ever running; a tool-call resolution or rejection runs
`complete(requestId)` and forwards the outcome. -/
def callToolCancellableSettle (s : CancellationManager) (requestId : String)
    (connected : Bool) (callOutcome : Except String Nat) :
    CancellationManager × Except String Nat :=
  if !connected then
    (s, Except.error "Not connected to MCP server. Call connect() first.")
  else
    match callOutcome with
    | Except.ok r => (s.complete requestId, Except.ok r)
    | Except.error e => (s.complete requestId, Except.error e)

/-- Embedding of the `cancel` closure of `callToolCancellable`: the returned
`Bool` says whether a cancellation notice is sent to the server, which the
code does exactly when `cancellationManager.cancel(requestId)` returned
`true`. -/
def callToolCancellableCancel (s : CancellationManager) (requestId : String) :
    CancellationManager × Bool :=
  let r := s.cancel requestId
  (r.2, r.1)

end DedalusMCPClient

/-- C5: `close()` is idempotent: the first call on a connected client closes
the transport, transitions to disconnected and clears all three registries —
aborting every pending cancellation entry — even when the transport close
throws; a second call is a no-op that does not throw. -/
theorem c5_close_idempotent (pt : ProgressTracker) (cm : CancellationManager)
    (tsm : TaskStatusManager) (fails fails2 : Bool)
    (hwf : ∀ p ∈ cm.pendingRequests, p.2 < cm.controllers.length) :
    (let c : DedalusMCPClient := ⟨true, pt, cm, tsm⟩
     let r := c.close fails
     r.1.connected = false ∧ r.2.1 = true ∧ r.2.2 = fails
       ∧ r.1.progressTracker.callbacks = []
       ∧ r.1.cancellationManager.pendingRequests = []
       ∧ (∀ p ∈ cm.pendingRequests,
            heapGet r.1.cancellationManager.controllers p.2 = true)
       ∧ r.1.taskStatusManager.callbacks = []
       ∧ r.1.close fails2 = (r.1, false, false)) := by
  have habort : ∀ (l : List (String × Nat)) (h : List Bool),
      (∀ p ∈ l, p.2 < h.length) →
      ∀ p ∈ l, heapGet (l.foldl (fun acc q => heapSet acc q.2) h) p.2 = true := by
    intro l
    induction l with
    | nil => intro h _ p hp; simp at hp
    | cons q t ih =>
      intro h hlt p hp
      have hpres : ∀ (t' : List (String × Nat)) (h' : List Bool) (j : Nat),
          heapGet h' j = true →
          heapGet (t'.foldl (fun acc q' => heapSet acc q'.2) h') j = true := by
        intro t'
        induction t' with
        | nil => intro h' j hj; simpa using hj
        | cons q' t'' ih' =>
          intro h' j hj
          exact ih' _ j (heapGet_heapSet_of_true h' q'.2 j hj)
      rcases List.mem_cons.mp hp with hq | hpt
      · subst hq
        exact hpres t (heapSet h p.2)
          p.2 (heapGet_heapSet_self h p.2 (hlt p (List.mem_cons_self _ _)))
      · have hlt' : ∀ p' ∈ t, p'.2 < (heapSet h q.2).length := by
          intro p' hp'
          rw [length_heapSet]
          exact hlt p' (List.mem_cons_of_mem _ hp')
        exact ih (heapSet h q.2) hlt' p hpt
  refine ⟨rfl, rfl, rfl, rfl, rfl, ?_, rfl, rfl⟩
  intro p hp
  exact habort cm.pendingRequests cm.controllers hwf p hp

/-- C5 witness: a concrete connected client with one pending request. -/
theorem c5_close_idempotent_witness :
    (∀ p ∈ ([("a", 0)] : List (String × Nat)), p.2 < ([false] : List Bool).length)
    ∧ (let c : DedalusMCPClient := ⟨true, ⟨[("p", 1)], 2⟩, ⟨[("a", 0)], [false], 1⟩, ⟨[[3]], [("t", 0)]⟩⟩
       let r := c.close true
       r.1.connected = false ∧ r.2.1 = true ∧ r.2.2 = true
         ∧ r.1.progressTracker.callbacks = []
         ∧ r.1.cancellationManager.pendingRequests = []
         ∧ (∀ p ∈ ([("a", 0)] : List (String × Nat)),
              heapGet r.1.cancellationManager.controllers p.2 = true)
         ∧ r.1.taskStatusManager.callbacks = []
         ∧ r.1.close false = (r.1, false, false)) :=
  ⟨by decide,
   c5_close_idempotent ⟨[("p", 1)], 2⟩ ⟨[("a", 0)], [false], 1⟩ ⟨[[3]], [("t", 0)]⟩
     true false (by decide)⟩

/-- C2 counterexample: on a disconnected client the promise returned by
`callToolCancellable` rejects with the not-connected error, yet the request
id is still pending afterwards — the entry is not removed on this settlement
path, refuting the claim that every settlement leaves the id not pending. -/
theorem c2_not_connected_rejection_leaves_entry_pending :
    (let st := DedalusMCPClient.callToolCancellableStart ⟨[], [], 0⟩ 7
     let settled := DedalusMCPClient.callToolCancellableSettle st.1 st.2 false (Except.ok 1)
     settled.2 = Except.error "Not connected to MCP server. Call connect() first."
       ∧ settled.1.isPending st.2 = true) :=
  ⟨rfl, by decide⟩

/-- C2 (amended): the cancellation entry is created before the call is
dispatched; when the promise settles through the tool call itself (resolve
or reject), the request id is no longer pending; a winning `cancel()`
removes the entry, and a cancellation notice is sent to the server exactly
when the entry was still pending; but a not-connected rejection leaves the
entry pending and the manager state unchanged. -/
theorem c2_cancellable_entry_lifecycle (s : CancellationManager) (now : Nat)
    (callOutcome : Except String Nat) :
    (let st := DedalusMCPClient.callToolCancellableStart s now
     st.1.isPending st.2 = true
       ∧ (DedalusMCPClient.callToolCancellableSettle st.1 st.2 true callOutcome).1.isPending st.2
           = false
       ∧ (∀ t : CancellationManager,
            (DedalusMCPClient.callToolCancellableCancel t st.2).2 = t.isPending st.2)
       ∧ (DedalusMCPClient.callToolCancellableCancel st.1 st.2).1.isPending st.2 = false
       ∧ DedalusMCPClient.callToolCancellableSettle st.1 st.2 false callOutcome
           = (st.1, Except.error "Not connected to MCP server. Call connect() first.")) := by
  have hpend : ∀ (t : CancellationManager) (rid : String),
      ((t.create rid).2).isPending rid = true := by
    intro t rid
    simp [CancellationManager.create, CancellationManager.isPending, mapLookup_mapSet_self]
  refine ⟨?_, ?_, ?_, ?_, ?_⟩
  · exact hpend _ _
  · cases callOutcome <;>
      simp [DedalusMCPClient.callToolCancellableSettle, CancellationManager.complete,
        CancellationManager.isPending, mapLookup_mapDelete_self]
  · intro t
    unfold DedalusMCPClient.callToolCancellableCancel CancellationManager.cancel
      CancellationManager.isPending
    cases h : mapLookup t.pendingRequests
        (DedalusMCPClient.callToolCancellableStart s now).2 <;> simp [h]
  · have hlook : mapLookup
        (DedalusMCPClient.callToolCancellableStart s now).1.pendingRequests
        (DedalusMCPClient.callToolCancellableStart s now).2
        = some s.controllers.length := by
      simp [DedalusMCPClient.callToolCancellableStart, CancellationManager.create,
        CancellationManager.generateRequestId, mapLookup_mapSet_self]
    simp [DedalusMCPClient.callToolCancellableCancel, CancellationManager.cancel, hlook,
      CancellationManager.isPending, mapLookup_mapDelete_self]
  · simp [DedalusMCPClient.callToolCancellableSettle]

/-! ## waitForTask (src/lib/mcp-client/tasks.ts)

The polling loop is embedded with an explicit logical clock that advances
at every suspension point: the entry abort check happens at clock `0`;
iteration `i` performs its top-of-loop abort check at clock `4*i+1`, its
`getTask` await resolves at `4*i+2`, its sleep starts at `4*i+3` and ends at
`4*i+4`.  `abortAt = some a` means the caller's `AbortSignal` fires at clock
`a` (and stays aborted).  The `sleep` helper rejects with a plain
`Error('Aborted')` — not a `TaskAbortedError` — both when the signal is
already aborted at its entry and when the signal fires while the timer is
pending, so any abort in the window `(4*i+1, 4*i+4]` surfaces as
`sleepAborted`.  Elapsed time at the top of iteration `i` is modelled as
`i * pollInterval`; `timeout = some 0` is falsy in `if (timeout && ...)` and
disables the deadline just as in the source. -/

inductive TaskState
  | pending
  | running
  | completed
  | failed
  | canceled
deriving DecidableEq

def TaskState.isTerminal : TaskState → Bool
  | TaskState.completed => true
  | TaskState.failed => true
  | TaskState.canceled => true
  | TaskState.pending => false
  | TaskState.running => false

/-- Possible settlements of the promise returned by `waitForTask`. -/
inductive WaitOutcome (R : Type)
  | result : R → WaitOutcome R
  | taskAborted : String → WaitOutcome R
  | taskTimeout : String → Nat → WaitOutcome R
  | sleepAborted : WaitOutcome R
deriving DecidableEq

/-- Inputs of one `waitForTask` execution: the successive `getTask` states,
the `getTaskResult` payload, the options, and the abort clock. -/
structure WaitEnv (R : Type) where
  taskId : String
  polls : List TaskState
  taskResult : R
  pollInterval : Nat
  timeout : Option Nat
  hasOnStatus : Bool
  abortAt : Option Nat
deriving DecidableEq

def abortedAt (abortAt : Option Nat) (c : Nat) : Bool :=
  match abortAt with
  | some a => decide (a ≤ c)
  | none => false

def timeoutHit {R : Type} (env : WaitEnv R) (i : Nat) : Bool :=
  match env.timeout with
  | some t => decide (t ≠ 0 ∧ i * env.pollInterval > t)
  | none => false

def waitLoop {R : Type} (env : WaitEnv R) : Nat → Nat → Option (WaitOutcome R)
  | _, 0 => none
  | i, fuel + 1 =>
    if abortedAt env.abortAt (4 * i + 1) then some (WaitOutcome.taskAborted env.taskId)
    else if timeoutHit env i then
      some (WaitOutcome.taskTimeout env.taskId (env.timeout.getD 0))
    else
      match env.polls.get? i with
      | none => none
      | some st =>
        if st.isTerminal then some (WaitOutcome.result env.taskResult)
        else if abortedAt env.abortAt (4 * i + 4) then some WaitOutcome.sleepAborted
        else waitLoop env (i + 1) fuel

/-- Embedding of `waitForTask`: the second component says whether a status
subscription registered by this call is still registered after the call
finished (`none` in the first component means the modelled poll responses
were exhausted with the loop still running). -/
def waitForTask {R : Type} (env : WaitEnv R) : Option (WaitOutcome R) × Bool :=
  if abortedAt env.abortAt 0 then
    (some (WaitOutcome.taskAborted env.taskId), false)
  else
    match waitLoop env 0 (env.polls.length + 1) with
    | some o => (some o, false)
    | none => (none, env.hasOnStatus)

/-- C4 counterexample: the task is `running` at the first poll and the
signal fires while the poll-interval sleep is pending (clock 4).  The wait
fails, but with the generic sleep rejection (`Error('Aborted')`), not with a
`TaskAbortedError` carrying the taskId as the claim states. -/
theorem c4_sleep_abort_is_generic_error :
    (waitForTask (⟨"task-1", [TaskState.running], 0, 10, none, false, some 4⟩ : WaitEnv Nat)).1
      = some WaitOutcome.sleepAborted
    ∧ (waitForTask (⟨"task-1", [TaskState.running], 0, 10, none, false, some 4⟩ : WaitEnv Nat)).1
      ≠ some (WaitOutcome.taskAborted "task-1") := by
  refine ⟨?_, ?_⟩ <;> decide

/-- C4 (amended): an abort observed at entry fails immediately with
`TaskAbortedError` and consumes no poll response (no network call), and an
abort observed at the top of a loop iteration fails with `TaskAbortedError`;
but an abort that fires after the top-of-loop check and before the sleep
finishes — including while the sleep is pending, which ends the sleep
immediately — surfaces as the sleep's generic `Error('Aborted')` instead of
a `TaskAbortedError`. -/
theorem c4_abort_failure_kinds {R : Type} (env : WaitEnv R) (i fuel : Nat) (st : TaskState) :
    (abortedAt env.abortAt 0 = true →
       ∀ polls' : List TaskState,
         waitForTask { env with polls := polls' }
           = (some (WaitOutcome.taskAborted env.taskId), false))
    ∧ (abortedAt env.abortAt (4 * i + 1) = true →
         waitLoop env i (fuel + 1) = some (WaitOutcome.taskAborted env.taskId))
    ∧ (abortedAt env.abortAt (4 * i + 1) = false → timeoutHit env i = false →
         env.polls.get? i = some st → st.isTerminal = false →
         abortedAt env.abortAt (4 * i + 4) = true →
         waitLoop env i (fuel + 1) = some WaitOutcome.sleepAborted) := by
  refine ⟨?_, ?_, ?_⟩
  · intro h polls'
    simp [waitForTask, abortedAt] at *
    simp [h]
  · intro h
    simp [waitLoop, h]
  · intro h1 h2 h3 h4 h5
    rw [List.get?_eq_getElem?] at h3
    simp [waitLoop, h1, h2, h3, h4, h5]

/-- C4 witness: concrete runs hitting the three abort points. -/
theorem c4_abort_failure_kinds_witness :
    waitForTask (⟨"t", [TaskState.pending], 0, 10, none, true, some 0⟩ : WaitEnv Nat)
      = (some (WaitOutcome.taskAborted "t"), false)
    ∧ waitLoop (⟨"t", [TaskState.running], 0, 10, none, false, some 1⟩ : WaitEnv Nat) 0 1
      = some (WaitOutcome.taskAborted "t")
    ∧ waitLoop (⟨"t", [TaskState.running], 0, 10, none, false, some 4⟩ : WaitEnv Nat) 0 1
      = some WaitOutcome.sleepAborted := by
  refine ⟨?_, ?_, ?_⟩
  · exact (c4_abort_failure_kinds
      (⟨"t", ([] : List TaskState), 0, 10, none, true, some 0⟩ : WaitEnv Nat)
      0 0 TaskState.running).1 (by decide) [TaskState.pending]
  · exact (c4_abort_failure_kinds
      (⟨"t", [TaskState.running], 0, 10, none, false, some 1⟩ : WaitEnv Nat)
      0 0 TaskState.running).2.1 (by decide)
  · exact (c4_abort_failure_kinds
      (⟨"t", [TaskState.running], 0, 10, none, false, some 4⟩ : WaitEnv Nat)
      0 0 TaskState.running).2.2 (by decide) (by decide) (by decide) (by decide) (by decide)

/-- C8: on every settled exit of `waitForTask` — normal result, timeout
failure, abort failure, or the sleep's thrown error — the status
subscription registered at entry is no longer registered afterwards. -/
theorem c8_status_subscription_released {R : Type} (env : WaitEnv R)
    (h : (waitForTask env).1 ≠ none) : (waitForTask env).2 = false := by
  unfold waitForTask at h ⊢
  by_cases h0 : abortedAt env.abortAt 0
  · simp [h0]
  · simp only [h0, Bool.false_eq_true, if_false] at h ⊢
    cases hw : waitLoop env 0 (env.polls.length + 1) with
    | none => simp [hw] at h
    | some o => simp [hw]

/-- C8 witness: a run with a status callback that resolves at the first
poll. -/
theorem c8_status_subscription_released_witness :
    ((waitForTask (⟨"t", [TaskState.completed], 5, 10, none, true, none⟩ : WaitEnv Nat)).1
       ≠ none)
    ∧ (waitForTask (⟨"t", [TaskState.completed], 5, 10, none, true, none⟩ : WaitEnv Nat)).2
       = false :=
  ⟨by decide,
   c8_status_subscription_released
     (⟨"t", [TaskState.completed], 5, 10, none, true, none⟩ : WaitEnv Nat) (by decide)⟩

/-! ## Pagination helpers (src/lib/mcp-client/client.ts)

`listAllTools`, `listAllResources` and `listAllPrompts` share the same
do/while loop: fetch a page, append its items, continue while the returned
`nextCursor` is truthy (JavaScript string truthiness: `undefined` and the
empty string are falsy).  `pages` is the sequence of responses the server
returns to the successive fetches. -/

structure Page (α : Type) where
  items : List α
  nextCursor : Option String
deriving DecidableEq

def cursorTruthy : Option String → Bool
  | none => false
  | some s => decide (s ≠ "")

def listAllItems {α : Type} : List (Page α) → List α
  | [] => []
  | p :: rest => p.items ++ (if cursorTruthy p.nextCursor then listAllItems rest else [])

/-- C10: the pagination loop stops both on an absent cursor and on an
empty-string cursor: if every page before `plast` carries a truthy cursor
and `plast`'s cursor is absent or empty, the result is exactly the
concatenation of the items of the pages up to and including `plast`, with
`plast`'s items included and no later page fetched. -/
theorem c10_pagination_stops_on_falsy_cursor {α : Type}
    (ps : List (Page α)) (plast : Page α) (extra : List (Page α))
    (hall : ∀ p ∈ ps, cursorTruthy p.nextCursor = true)
    (hlast : cursorTruthy plast.nextCursor = false) :
    listAllItems (ps ++ plast :: extra) = (ps.map Page.items).flatten ++ plast.items := by
  induction ps with
  | nil => simp [listAllItems, hlast]
  | cons p ps ih =>
    have hp : cursorTruthy p.nextCursor = true := hall p (List.mem_cons_self _ _)
    have hrest : ∀ q ∈ ps, cursorTruthy q.nextCursor = true :=
      fun q hq => hall q (List.mem_cons_of_mem _ hq)
    simp [listAllItems, hp, ih hrest]

/-- C10 witness: two pages followed by the empty-string cursor page; a later
page exists but is not fetched. -/
theorem c10_pagination_stops_on_falsy_cursor_witness :
    (∀ p ∈ ([⟨[1], some "x"⟩] : List (Page Nat)), cursorTruthy p.nextCursor = true)
    ∧ cursorTruthy (some "") = false
    ∧ listAllItems (([⟨[1], some "x"⟩] : List (Page Nat))
        ++ (⟨[2], some ""⟩ : Page Nat) :: [⟨[3], some "y"⟩])
      = (([⟨[1], some "x"⟩] : List (Page Nat)).map Page.items).flatten ++ [2] :=
  ⟨by decide, by decide,
   c10_pagination_stops_on_falsy_cursor [⟨[1], some "x"⟩] ⟨[2], some ""⟩ [⟨[3], some "y"⟩]
     (by decide) (by decide)⟩

/-! ## MCPClientManager (src/lib/mcp-client/manager.ts)

Server names and tool names are modelled as `List Char` so that the
first-dot split of `callTool` can be embedded faithfully.  `truthy` is
JavaScript string truthiness on an optional field: `undefined` and the
empty string are falsy. -/

def truthy : Option String → Bool
  | none => false
  | some s => decide (s ≠ "")

structure MCPServerConfig where
  command : Option String := none
  args : Option (List String) := none
  env : Option (List (String × String)) := none
  cwd : Option String := none
  url : Option String := none
  headers : Option (List (String × String)) := none
deriving DecidableEq

/-- The connection constructed by `createClient` via `DedalusMCPClient.fromHTTP`
or `DedalusMCPClient.fromStdio`. -/
inductive ClientConn
  | http (url : String) (headers : Option (List (String × String)))
  | stdio (command : String) (args : Option (List String))
      (env : Option (List (String × String))) (cwd : Option String)
deriving DecidableEq

inductive ManagerError
  | serverAlreadyExists (name : List Char)
  | configMissingCommandOrUrl
  | invalidToolName
  | unknownServer (name : List Char)
deriving DecidableEq

/-- Embedding of the private `createClient`: `if (config.url)` is checked
before `if (config.command)`, so a config carrying both shapes yields an
HTTP client. -/
def createClient (config : MCPServerConfig) : Except ManagerError ClientConn :=
  if truthy config.url then
    Except.ok (ClientConn.http (config.url.getD "") config.headers)
  else if truthy config.command then
    Except.ok (ClientConn.stdio (config.command.getD "") config.args config.env config.cwd)
  else Except.error ManagerError.configMissingCommandOrUrl

structure MCPClientManager where
  clients : List (List Char × ClientConn)
deriving DecidableEq

namespace MCPClientManager

/-- Embedding of `addServer`: a thrown error leaves the registry unchanged
(first component) and constructs no connection. -/
def addServer (m : MCPClientManager) (name : List Char) (config : MCPServerConfig) :
    MCPClientManager × Except ManagerError ClientConn :=
  if (mapLookup m.clients name).isSome then
    (m, Except.error (ManagerError.serverAlreadyExists name))
  else
    match createClient config with
    | Except.error e => (m, Except.error e)
    | Except.ok c => (⟨mapSet m.clients name c⟩, Except.ok c)

end MCPClientManager

/-! ### First-dot namespacing split of `callTool`

JavaScript `name.split('.')` for the single-character separator, and the
re-join `toolNameParts.join('.')`. -/

def splitOnDot : List Char → List (List Char)
  | [] => [[]]
  | c :: cs =>
    match splitOnDot cs with
    | [] => [[]]
    | p :: ps => if c = '.' then [] :: p :: ps else (c :: p) :: ps

def joinDots : List (List Char) → List Char
  | [] => []
  | [p] => p
  | p :: ps => p ++ '.' :: joinDots ps

theorem splitOnDot_ne_nil (l : List Char) : splitOnDot l ≠ [] := by
  cases l with
  | nil => simp [splitOnDot]
  | cons c cs =>
    simp only [splitOnDot]
    cases splitOnDot cs with
    | nil => simp
    | cons p ps =>
      by_cases h : c = '.' <;> simp [h]

theorem joinDots_cons (c : Char) (p : List Char) (ps : List (List Char)) :
    joinDots ((c :: p) :: ps) = c :: joinDots (p :: ps) := by
  cases ps <;> simp [joinDots]

theorem joinDots_splitOnDot (r : List Char) : joinDots (splitOnDot r) = r := by
  induction r with
  | nil => simp [splitOnDot, joinDots]
  | cons c cs ih =>
    cases h : splitOnDot cs with
    | nil => exact absurd h (splitOnDot_ne_nil cs)
    | cons p ps =>
      rw [h] at ih
      by_cases hc : c = '.'
      · subst hc
        simp [splitOnDot, h, joinDots, ih]
      · simp [splitOnDot, h, hc, joinDots_cons, ih]

theorem splitOnDot_append (s r : List Char) (hdot : '.' ∉ s) :
    splitOnDot (s ++ '.' :: r) = s :: splitOnDot r := by
  induction s with
  | nil =>
    simp only [List.nil_append, splitOnDot]
    cases h : splitOnDot r with
    | nil => exact absurd h (splitOnDot_ne_nil r)
    | cons p ps => simp
  | cons c s ih =>
    have hc : ¬ c = '.' := fun e => hdot (e ▸ List.mem_cons_self _ _)
    have hs : '.' ∉ s := fun hm => hdot (List.mem_cons_of_mem _ hm)
    simp only [List.cons_append, splitOnDot, List.append_eq, ih hs, hc, if_false]

namespace MCPClientManager

/-- Embedding of `callTool`: split on every dot, take the first segment as
server name, re-join the rest with dots as the tool name, reject an empty
server segment or an empty part list, and route to the registered client. -/
def callTool (m : MCPClientManager) (name : List Char) :
    Except ManagerError (ClientConn × List Char) :=
  match splitOnDot name with
  | [] => Except.error ManagerError.invalidToolName
  | serverName :: toolNameParts =>
    if serverName.isEmpty || toolNameParts.isEmpty then
      Except.error ManagerError.invalidToolName
    else
      match mapLookup m.clients serverName with
      | none => Except.error (ManagerError.unknownServer serverName)
      | some client => Except.ok (client, joinDots toolNameParts)

end MCPClientManager

/-- C3 counterexample: a config carrying **both** `command` and `url` does
not fail — `createClient` checks `url` first and constructs an HTTP client,
and `addServer` registers it. -/
theorem c3_both_shapes_do_not_fail :
    (MCPClientManager.addServer ⟨[]⟩ ['s']
        { command := some "npx", url := some "http://localhost:3000/mcp" }).2
      = Except.ok (ClientConn.http "http://localhost:3000/mcp" none)
    ∧ (MCPClientManager.addServer ⟨[]⟩ ['s']
        { command := some "npx", url := some "http://localhost:3000/mcp" }).1
      = ⟨[(['s'], ClientConn.http "http://localhost:3000/mcp" none)]⟩ :=
  ⟨rfl, rfl⟩

/-- C3 (amended): `addServer` fails with a configuration error when the
config has neither a truthy `command` nor a truthy `url`, and when the name
is already registered; in each failing case the registry is unchanged and no
connection is constructed.  When both shapes are present the `url` shape
takes precedence and an HTTP connection is registered without error. -/
theorem c3_add_server_validation (m : MCPClientManager) (name : List Char)
    (config : MCPServerConfig) :
    ((mapLookup m.clients name).isSome = true →
       m.addServer name config = (m, Except.error (ManagerError.serverAlreadyExists name)))
    ∧ (truthy config.url = false → truthy config.command = false →
       (mapLookup m.clients name).isSome = false →
       m.addServer name config = (m, Except.error ManagerError.configMissingCommandOrUrl))
    ∧ ((mapLookup m.clients name).isSome = false → truthy config.url = true →
       m.addServer name config
         = (⟨mapSet m.clients name (ClientConn.http (config.url.getD "") config.headers)⟩,
            Except.ok (ClientConn.http (config.url.getD "") config.headers))) := by
  refine ⟨?_, ?_, ?_⟩
  · intro h
    simp [MCPClientManager.addServer, h]
  · intro hu hc h
    simp [MCPClientManager.addServer, h, createClient, hu, hc]
  · intro h hu
    simp [MCPClientManager.addServer, h, createClient, hu]

/-- C3 witness: the three cases at concrete inputs. -/
theorem c3_add_server_validation_witness :
    (MCPClientManager.addServer ⟨[(['s'], ClientConn.http "u" none)]⟩ ['s'] {}
       = (⟨[(['s'], ClientConn.http "u" none)]⟩,
          Except.error (ManagerError.serverAlreadyExists ['s'])))
    ∧ (MCPClientManager.addServer ⟨[]⟩ ['a'] {}
       = (⟨[]⟩, Except.error ManagerError.configMissingCommandOrUrl))
    ∧ (MCPClientManager.addServer ⟨[]⟩ ['a'] { url := some "http://x" }
       = (⟨[(['a'], ClientConn.http "http://x" none)]⟩,
          Except.ok (ClientConn.http "http://x" none))) :=
  ⟨(c3_add_server_validation ⟨[(['s'], ClientConn.http "u" none)]⟩ ['s'] {}).1 (by decide),
   (c3_add_server_validation ⟨[]⟩ ['a'] {}).2.1 (by decide) (by decide) (by decide),
   (c3_add_server_validation ⟨[]⟩ ['a'] { url := some "http://x" }).2.2
     (by decide) (by decide)⟩

/-- C7: for a registered, non-empty, dot-free server segment `s`, `callTool`
on `s ++ "." ++ r` routes to the client registered under `s` with the
verbatim remainder `r` as tool name, even when `r` contains dots; an
unknown server segment fails with an unknown-server error, and an empty
server segment fails with an invalid-name error — in both failing cases no
client is returned, so no underlying tool call is made. -/
theorem c7_first_dot_routing (m : MCPClientManager) (s r r' : List Char) (c : ClientConn)
    (hdot : '.' ∉ s) (hs : s ≠ []) :
    (mapLookup m.clients s = some c →
       m.callTool (s ++ '.' :: r) = Except.ok (c, r))
    ∧ (mapLookup m.clients s = none →
       m.callTool (s ++ '.' :: r) = Except.error (ManagerError.unknownServer s))
    ∧ m.callTool ('.' :: r') = Except.error ManagerError.invalidToolName := by
  have hsplit := splitOnDot_append s r hdot
  have hne := splitOnDot_ne_nil r
  refine ⟨?_, ?_, ?_⟩
  · intro hc
    simp [MCPClientManager.callTool, hsplit, hs, List.isEmpty_iff, hne, hc,
      joinDots_splitOnDot]
  · intro hc
    simp [MCPClientManager.callTool, hsplit, hs, List.isEmpty_iff, hne, hc]
  · have hsplit' : splitOnDot ('.' :: r') = [] :: splitOnDot r' := by
      simpa using splitOnDot_append [] r' (by simp)
    simp [MCPClientManager.callTool, hsplit']

/-- C7 witness: server `"fs"` routing `"fs.run.fast"` to tool `"run.fast"`,
an unknown server, and an empty server segment. -/
theorem c7_first_dot_routing_witness :
    (MCPClientManager.callTool ⟨[(['f', 's'], ClientConn.http "u" none)]⟩
        (['f', 's'] ++ '.' :: ['r', 'u', 'n', '.', 'f', 'a', 's', 't'])
      = Except.ok (ClientConn.http "u" none, ['r', 'u', 'n', '.', 'f', 'a', 's', 't']))
    ∧ (MCPClientManager.callTool ⟨[]⟩ (['f', 's'] ++ '.' :: ['r', 'u', 'n'])
      = Except.error (ManagerError.unknownServer ['f', 's']))
    ∧ (MCPClientManager.callTool ⟨[]⟩ ('.' :: ['r', 'u', 'n'])
      = Except.error ManagerError.invalidToolName) :=
  ⟨(c7_first_dot_routing ⟨[(['f', 's'], ClientConn.http "u" none)]⟩
      ['f', 's'] ['r', 'u', 'n', '.', 'f', 'a', 's', 't'] ['r', 'u', 'n']
      (ClientConn.http "u" none) (by decide) (by decide)).1 (by decide),
   (c7_first_dot_routing ⟨[]⟩ ['f', 's'] ['r', 'u', 'n'] ['r', 'u', 'n']
      (ClientConn.http "u" none) (by decide) (by decide)).2.1 (by decide),
   (c7_first_dot_routing ⟨[]⟩ ['f', 's'] ['r', 'u', 'n'] ['r', 'u', 'n']
      (ClientConn.http "u" none) (by decide) (by decide)).2.2⟩

/-! ## aggregateMCPTools (src/lib/runner/mcp-integration.ts)

Each client contributes its reported server identity
(`getServerInfo()?.name ?? 'unknown'`) and the tools of `listAllTools()`;
`clientIdx` stands for the `client` object reference stored in each entry
(the position of the client in the input list). -/

structure MCPTool where
  name : String
  description : Option String
deriving DecidableEq

structure ClientModel where
  serverInfoName : Option String
  tools : List MCPTool
deriving DecidableEq

structure MCPToolInfo where
  tool : MCPTool
  clientIdx : Nat
  serverName : String
  originalName : String
deriving DecidableEq

def aggTool (serverName : String) (idx : Nat) (m : List (String × MCPToolInfo))
    (tool : MCPTool) : List (String × MCPToolInfo) :=
  let namespacedName := serverName ++ "." ++ tool.name
  mapSet m namespacedName
    ⟨⟨namespacedName, some ("[" ++ serverName ++ "] " ++ tool.description.getD "")⟩,
     idx, serverName, tool.name⟩

def aggClient (m : List (String × MCPToolInfo)) (idx : Nat) (c : ClientModel) :
    List (String × MCPToolInfo) :=
  c.tools.foldl (aggTool (c.serverInfoName.getD "unknown") idx) m

def aggAll (m : List (String × MCPToolInfo)) (idx : Nat) :
    List ClientModel → List (String × MCPToolInfo)
  | [] => m
  | c :: rest => aggAll (aggClient m idx c) (idx + 1) rest

def aggregateMCPTools (clients : List ClientModel) : List (String × MCPToolInfo) :=
  aggAll [] 0 clients

/-- The namespaced keys a client contributes:
`(serverInfo?.name ?? 'unknown') + "." + tool.name`. -/
def clientKeys (c : ClientModel) : List String :=
  c.tools.map (fun t => c.serverInfoName.getD "unknown" ++ "." ++ t.name)

theorem mapLookup_aggTool_fold (serverName : String) (idx : Nat) (ts : List MCPTool)
    (m : List (String × MCPToolInfo)) (k : String) :
    mapLookup (ts.foldl (aggTool serverName idx) m) k
      = if k ∈ ts.map (fun t => serverName ++ "." ++ t.name)
        then mapLookup (ts.foldl (aggTool serverName idx) []) k
        else mapLookup m k := by
  induction ts generalizing m with
  | nil => simp
  | cons t ts ih =>
    simp only [List.foldl_cons, List.map_cons, List.mem_cons]
    rw [ih (aggTool serverName idx m t), ih (aggTool serverName idx [] t)]
    by_cases hk1 : k ∈ ts.map (fun t => serverName ++ "." ++ t.name)
    · simp [hk1]
    · by_cases hk2 : k = serverName ++ "." ++ t.name
      · simp [hk1, hk2, aggTool, mapLookup_mapSet_self]
      · simp [hk1, hk2, aggTool, mapLookup_mapSet_ne _ _ hk2]

theorem mapLookup_aggTool_fold_isSome (serverName : String) (idx : Nat)
    (ts : List MCPTool) (m : List (String × MCPToolInfo)) (k : String) :
    ((mapLookup (ts.foldl (aggTool serverName idx) m) k).isSome = true
      ↔ k ∈ ts.map (fun t => serverName ++ "." ++ t.name)
        ∨ (mapLookup m k).isSome = true) := by
  induction ts generalizing m with
  | nil => simp
  | cons t ts ih =>
    simp only [List.foldl_cons, List.map_cons, List.mem_cons]
    rw [ih (aggTool serverName idx m t)]
    by_cases hk2 : k = serverName ++ "." ++ t.name
    · simp [hk2, aggTool, mapLookup_mapSet_self]
    · simp [hk2, aggTool, mapLookup_mapSet_ne _ _ hk2, or_assoc]

theorem aggAll_append (cs : List ClientModel) (c : ClientModel)
    (m : List (String × MCPToolInfo)) (idx : Nat) :
    aggAll m idx (cs ++ [c]) = aggClient (aggAll m idx cs) (idx + cs.length) c := by
  induction cs generalizing m idx with
  | nil => simp [aggAll]
  | cons c' cs ih =>
    show aggAll (aggClient m idx c') (idx + 1) (cs ++ [c])
        = aggClient (aggAll (aggClient m idx c') (idx + 1) cs) (idx + (cs.length + 1)) c
    rw [ih]
    have h : idx + 1 + cs.length = idx + (cs.length + 1) := by omega
    rw [h]

/-- C9: aggregation keys every tool as `namespace ++ "." ++ toolName` with
the namespace falling back to the literal `"unknown"` when the client
reports no identity (conjuncts two and three), and on key collisions the
client appearing later in the input list wins: a key contributed by the
last client resolves to that client's entry, and any other key falls
through to the aggregation of the earlier clients (conjunct one) — no error
is raised. -/
theorem c9_aggregate_unknown_fallback_and_last_write_wins
    (cs : List ClientModel) (c : ClientModel) (k : String) :
    (mapLookup (aggregateMCPTools (cs ++ [c])) k
      = if k ∈ clientKeys c then mapLookup (aggClient [] cs.length c) k
        else mapLookup (aggregateMCPTools cs) k)
    ∧ ((mapLookup (aggClient [] cs.length c) k).isSome = true ↔ k ∈ clientKeys c)
    ∧ clientKeys c
        = c.tools.map (fun t => c.serverInfoName.getD "unknown" ++ "." ++ t.name) := by
  refine ⟨?_, ?_, rfl⟩
  · show mapLookup (aggAll [] 0 (cs ++ [c])) k = _
    rw [aggAll_append cs c [] 0]
    simp only [Nat.zero_add]
    exact mapLookup_aggTool_fold _ _ _ _ k
  · rw [show (aggClient [] cs.length c)
        = c.tools.foldl (aggTool (c.serverInfoName.getD "unknown") cs.length) [] from rfl]
    rw [mapLookup_aggTool_fold_isSome]
    simp [clientKeys, mapLookup]

end DedalusSDK
